import Mathlib

/-!
Verification of `src/perf/plot_perf_results.py`, the benchmark-result
ingestion/aggregation/plotting script.

Strings are modelled as `List Char` (Python `str`), parsed JSON documents as
the inductive `Json`, Python dicts as association lists with unique keys, and
Python floats as exact numbers (`ℚ` for data, `ℝ` for derived statistics;
`float('nan')` is modelled by `Option` with `none` standing for NaN).
Python exceptions are modelled by `Except PyErr`.
-/

namespace PerfPlot

/-- A Python string. -/
abbrev Str := List Char

/-- The exceptions the script can raise while aggregating. -/
inductive PyErr where
  /-- `raise ValueError(msg)` -/
  | valueError (msg : Str)
  /-- Python `AttributeError` from calling `.get` on a non-dict value. -/
  | attributeError
  /-- Python `TypeError` from iterating a non-iterable value. -/
  | typeError
  /-- `raise SystemExit(msg)` -/
  | systemExit (msg : Str)
deriving DecidableEq, Repr

/-- A parsed JSON document, as `json.load` returns it: numbers without a
decimal point load as Python `int` (`jint`), the rest as `float` (`jnum`). -/
inductive Json where
  | null
  | jbool (b : Bool)
  | jint (n : ℤ)
  | jnum (q : ℚ)
  | str (s : Str)
  | arr (elems : List Json)
  | obj (fields : List (Str × Json))
deriving Repr

/-- Python numeric value of a JSON scalar, when it has one
(`True == 1 == 1.0` in Python). -/
def Json.pyNumVal : Json → Option ℚ
  | .jint n => some (n : ℚ)
  | .jnum q => some q
  | .jbool b => some (if b then 1 else 0)
  | _ => none

mutual

/-- Python `==` on JSON values (numbers compare across `int`/`float`/`bool`;
containers compare structurally). -/
def Json.beq : Json → Json → Bool
  | .null, .null => true
  | .str a, .str b => a = b
  | .arr a, .arr b => beqElems a b
  | .obj a, .obj b => beqFields a b
  | a, b =>
    match a.pyNumVal, b.pyNumVal with
    | some x, some y => x = y
    | _, _ => false

/-- Python `==` on JSON arrays, elementwise. -/
def beqElems : List Json → List Json → Bool
  | [], [] => true
  | a :: as, b :: bs => a.beq b && beqElems as bs
  | _, _ => false

/-- Python `==` on JSON objects (field lists with unique keys, in insertion
order, as `json.load` produces them). -/
def beqFields : List (Str × Json) → List (Str × Json) → Bool
  | [], [] => true
  | (k1, v1) :: as, (k2, v2) :: bs => (k1 = k2 : Bool) && v1.beq v2 && beqFields as bs
  | _, _ => false

end

/-- The fields of a JSON object / Python dict (keys unique, as after
`json.load`). -/
abbrev Obj := List (Str × Json)

/-- Python `d.get(k)` on a dict: the value stored at `k`, if any. -/
def oget (m : Obj) (k : Str) : Option Json :=
  match m with
  | [] => none
  | (k', v) :: rest => if k' = k then some v else oget rest k

/-- Python truthiness of a JSON value (`if not x: ...`). -/
def Json.falsy : Json → Bool
  | .null => true
  | .jbool b => !b
  | .jint n => n = 0
  | .jnum q => q = 0
  | .str s => s.isEmpty
  | .arr l => l.isEmpty
  | .obj m => m.isEmpty

/-- `isinstance(x, int)` (Python `bool` is a subclass of `int`), with the
integer value. -/
def Json.asInt : Json → Option ℤ
  | .jint n => some n
  | .jbool b => some (if b then 1 else 0)
  | _ => none

/-- `isinstance(x, (int, float))` (including `bool`), with `float(x)`. -/
def Json.asNum : Json → Option ℚ
  | .jint n => some (n : ℚ)
  | .jnum q => some q
  | .jbool b => some (if b then 1 else 0)
  | _ => none

/-- The fields of a JSON value when it is a mapping (`isinstance(x, dict)`). -/
def Json.asObj : Json → Option Obj
  | .obj m => some m
  | _ => none

/-- Python `s.startswith(pre)`. -/
def startswith : Str → Str → Bool
  | _, [] => true
  | [], _ :: _ => false
  | c :: s, p :: ps => c = p && startswith s ps

/-- Python `s.endswith(suf)`. -/
def endswith (s suf : Str) : Bool :=
  startswith s.reverse suf.reverse

/-- Python `name[a:-b]`: drop `a` characters at the front and `b` at the
back. -/
def slice (s : Str) (a b : ℕ) : Str :=
  (s.drop a).take (s.length - b - a)

/-- The part of `s` before and after the LAST occurrence of `sep`
(`s.rpartition(sep)` when `sep` occurs; `none` models Python's
`('', '', s)` result for a separator that does not occur). -/
def rsplitLast (sep : Char) : Str → Option (Str × Str)
  | [] => none
  | c :: rest =>
    match rsplitLast sep rest with
    | some (l, r) => some (c :: l, r)
    | none => if c = sep then some ([], rest) else none

/-- The filename pattern `'protspace-webgl-perf-suite-'` of suite-aggregate
files. -/
def protSuitePre : Str := "protspace-webgl-perf-suite-".toList

/-- The filename pattern `'webgl-perf-'`. -/
def webglPre : Str := "webgl-perf-".toList

/-- The filename suffix `'.json'`. -/
def jsonSuf : Str := ".json".toList

/-- The stem pattern `'suite-'`. -/
def suitePre : Str := "suite-".toList

/-- `_parse_dataset_and_browser`: derive `(dataset-or-absent, browser)` from a
result file's name. -/
def parse_dataset_and_browser (name : Str) : Except PyErr (Option Str × Str) :=
  if startswith name protSuitePre && endswith name jsonSuf then
    .ok (none, "unknown".toList)
  else if !(startswith name webglPre && endswith name jsonSuf) then
    .error (.valueError ("Unexpected filename: ".toList ++ name))
  else
    let stem := slice name webglPre.length jsonSuf.length
    if startswith stem suitePre then
      let browser := stem.drop suitePre.length
      if browser.isEmpty then
        .error (.valueError ("Cannot parse browser from suite filename: ".toList ++ name))
      else
        .ok (none, browser)
    else
      match rsplitLast '-' stem with
      | none =>
        .error (.valueError ("Cannot parse dataset/browser from: ".toList ++ name))
      | some (dataset, browser) =>
        if dataset.isEmpty || browser.isEmpty then
          .error (.valueError ("Cannot parse dataset/browser from: ".toList ++ name))
        else
          .ok (some dataset, browser)

/-- The JSON key `'results'`. -/
def kResults : Str := "results".toList

/-- The JSON key `'dataset'`. -/
def kDataset : Str := "dataset".toList

/-- The JSON key `'id'`. -/
def kId : Str := "id".toList

/-- The JSON key `'scenarios'`. -/
def kScenarios : Str := "scenarios".toList

/-- The JSON key `'name'`. -/
def kName : Str := "name".toList

/-- The JSON key `'passes'`. -/
def kPasses : Str := "passes".toList

/-- The JSON key `'renderedPoints'`. -/
def kRenderedPoints : Str := "renderedPoints".toList

/-- The JSON key `'durationMs'`. -/
def kDurationMs : Str := "durationMs".toList

/-- The literal fallback dataset/browser identity `'unknown'`. -/
def unknownStr : Str := "unknown".toList

/-- `_iter_dataset_payloads`: normalize the parsed JSON root of one file into
the sequence of per-dataset payload mappings. -/
def iter_dataset_payloads : Json → List Obj
  | .obj fields =>
    match oget fields kResults with
    | some (.arr entries) => entries.filterMap Json.asObj
    | _ => [fields]
  | _ => []

/-- Dataset identity resolution in `main`: start from the filename-derived
dataset, override it with the payload's `dataset.id` when that is a non-empty
string, and fall back to `'unknown'` when the result is missing or empty. -/
def effective_dataset (dataset_from_name : Option Str) (payload : Obj) : Str :=
  let dataset := dataset_from_name
  let dataset :=
    match oget payload kDataset with
    | some (.obj ds) =>
      match oget ds kId with
      | some (.str s) => if !s.isEmpty then some s else dataset
      | _ => dataset
    | _ => dataset
  match dataset with
  | none => unknownStr
  | some d => if d.isEmpty then unknownStr else d

/-- The payload-embedded dataset identifier: the payload's `dataset.id` field
when it is a non-empty string (specification-side helper). -/
def payloadDatasetId (payload : Obj) : Option Str :=
  match oget payload kDataset with
  | some (.obj ds) =>
    match oget ds kId with
    | some (.str s) => if s.isEmpty then none else some s
    | _ => none
  | _ => none

/-- The `Stat` dataclass: `mean_ms`/`ci95_ms` are floats, modelled exactly in
`ℝ` with `none` standing for `float('nan')`. -/
structure Stat where
  mean_ms : Option ℝ
  ci95_ms : Option ℝ
  n : ℕ

/-- `_mean_ci95_ms`: mean and 95%-CI half-width of a duration sample. -/
noncomputable def mean_ci95_ms (values : List ℚ) : Stat :=
  let n := values.length
  if n = 0 then
    { mean_ms := none, ci95_ms := none, n := 0 }
  else
    let mean : ℝ := (values.map fun x => (x : ℝ)).sum / n
    if n = 1 then
      { mean_ms := some mean, ci95_ms := some 0, n := 1 }
    else
      let var : ℝ := (values.map fun x => ((x : ℝ) - mean) ^ 2).sum / ((n : ℝ) - 1)
      let std := Real.sqrt var
      let sem := std / Real.sqrt n
      let ci := 1.96 * sem
      { mean_ms := some mean, ci95_ms := some ci, n := n }

/-- The arithmetic mean of a sample (specification-side helper). -/
noncomputable def sampleMean (values : List ℚ) : ℝ :=
  (values.map fun x => (x : ℝ)).sum / values.length

/-- The sample variance with Bessel's correction, dividing by `n - 1`
(specification-side helper). -/
noncomputable def sampleVar (values : List ℚ) : ℝ :=
  (values.map fun x => ((x : ℝ) - sampleMean values) ^ 2).sum / ((values.length : ℝ) - 1)

/-- C1: for n = 0 the statistics function returns mean = NaN, ci = NaN, n = 0;
for n = 1 with single value v it returns mean = v, ci = 0.0; for n ≥ 2 it
returns the arithmetic mean and ci = 1.96 × sqrt(sample_variance / n), the
sample variance dividing by n − 1 (Bessel); samples [10, 20] yield mean = 15
and ci = 9.8. -/
theorem stat_engine_spec :
    mean_ci95_ms [] = ⟨none, none, 0⟩
    ∧ (∀ v : ℚ, mean_ci95_ms [v] = ⟨some (v : ℝ), some 0, 1⟩)
    ∧ (∀ values : List ℚ, 2 ≤ values.length →
        mean_ci95_ms values =
          ⟨some (sampleMean values),
           some (1.96 * Real.sqrt (sampleVar values / values.length)),
           values.length⟩)
    ∧ mean_ci95_ms [10, 20] = ⟨some 15, some 9.8, 2⟩ := by
  refine ⟨rfl, ?_, ?_, ?_⟩
  · intro v
    simp [mean_ci95_ms]
  · intro values h
    have h0 : values.length ≠ 0 := by omega
    have h1 : values.length ≠ 1 := by omega
    have hvar : 0 ≤ sampleVar values := by
      apply div_nonneg
      · apply List.sum_nonneg
        intro x hx
        simp only [List.mem_map] at hx
        obtain ⟨q, -, rfl⟩ := hx
        positivity
      · have : (2 : ℝ) ≤ values.length := by exact_mod_cast h
        linarith
    rw [Real.sqrt_div hvar]
    simp only [mean_ci95_ms, if_neg h0, if_neg h1]
    rfl
  · have s50 : Real.sqrt 50 / Real.sqrt 2 = 5 := by
      rw [← Real.sqrt_div (by norm_num : (0:ℝ) ≤ 50)]
      rw [show (50 : ℝ) / 2 = 25 by norm_num]
      rw [show (25 : ℝ) = 5 ^ 2 by norm_num, Real.sqrt_sq (by norm_num : (0:ℝ) ≤ 5)]
    simp only [mean_ci95_ms, List.length_cons, List.length_nil]
    norm_num
    rw [s50]
    norm_num

/-- Witness for `stat_engine_spec` at the concrete sample list `[10, 20]`. -/
theorem stat_engine_spec_witness :
    2 ≤ ([(10:ℚ), 20] : List ℚ).length ∧
    mean_ci95_ms [(10:ℚ), 20] =
      ⟨some (sampleMean [(10:ℚ), 20]),
       some (1.96 * Real.sqrt (sampleVar [(10:ℚ), 20] / (([(10:ℚ), 20] : List ℚ).length : ℝ))),
       ([(10:ℚ), 20] : List ℚ).length⟩ :=
  ⟨by decide, stat_engine_spec.2.2.1 [(10:ℚ), 20] (by decide)⟩

/-- Helper: a string starting with `c :: ps` has first character `c`. -/
theorem startswith_head {name : Str} {c : Char} {ps : Str}
    (h : startswith name (c :: ps) = true) : name.head? = some c := by
  cases name with
  | nil => simp [startswith] at h
  | cons a as =>
    simp only [startswith, Bool.and_eq_true, decide_eq_true_eq] at h
    simp [h.1]

/-- Helper: a name starting with `webgl-perf-` cannot also start with
`protspace-webgl-perf-suite-`. -/
theorem not_protspace_of_webgl {name : Str}
    (h : startswith name webglPre = true) :
    startswith name protSuitePre = false := by
  cases hb : startswith name protSuitePre with
  | false => rfl
  | true =>
    rw [show webglPre = 'w' :: "ebgl-perf-".toList from rfl] at h
    rw [show protSuitePre = 'p' :: "rotspace-webgl-perf-suite-".toList from rfl] at hb
    have h1 := startswith_head h
    have h2 := startswith_head hb
    rw [h1] at h2
    simp at h2

/-- C2: the filename resolver returns (absent, "unknown") for names matching
the suite-aggregate pattern; (absent, browser) when the stem after
`webgl-perf-` starts with `suite-` followed by a non-empty browser; otherwise
(dataset, browser) from splitting the stem on its last `-`; and
`webgl-perf-40K-chrome.json` ↦ ("40K", "chrome"),
`webgl-perf-suite-firefox.json` ↦ (absent, "firefox"),
`protspace-webgl-perf-suite-2024.json` ↦ (absent, "unknown"). -/
theorem resolver_spec :
    (∀ name : Str,
      startswith name protSuitePre = true →
      endswith name jsonSuf = true →
      parse_dataset_and_browser name = .ok (none, "unknown".toList))
    ∧ (∀ name : Str,
      startswith name webglPre = true →
      endswith name jsonSuf = true →
      startswith (slice name webglPre.length jsonSuf.length) suitePre = true →
      (slice name webglPre.length jsonSuf.length).drop suitePre.length ≠ [] →
      parse_dataset_and_browser name =
        .ok (none, (slice name webglPre.length jsonSuf.length).drop suitePre.length))
    ∧ (∀ name ds br : Str,
      startswith name webglPre = true →
      endswith name jsonSuf = true →
      startswith (slice name webglPre.length jsonSuf.length) suitePre = false →
      rsplitLast '-' (slice name webglPre.length jsonSuf.length) = some (ds, br) →
      ds ≠ [] → br ≠ [] →
      parse_dataset_and_browser name = .ok (some ds, br))
    ∧ parse_dataset_and_browser "webgl-perf-40K-chrome.json".toList =
        .ok (some "40K".toList, "chrome".toList)
    ∧ parse_dataset_and_browser "webgl-perf-suite-firefox.json".toList =
        .ok (none, "firefox".toList)
    ∧ parse_dataset_and_browser "protspace-webgl-perf-suite-2024.json".toList =
        .ok (none, "unknown".toList) := by
  refine ⟨?_, ?_, ?_, rfl, rfl, rfl⟩
  · intro name hP hJ
    simp [parse_dataset_and_browser, hP, hJ]
  · intro name hW hJ hS hD
    have hD' : ((slice name webglPre.length jsonSuf.length).drop suitePre.length).isEmpty = false := by
      simpa [List.isEmpty_eq_false] using hD
    simp [parse_dataset_and_browser, not_protspace_of_webgl hW, hW, hJ, hS, hD']
  · intro name ds br hW hJ hS hsp hd hb
    simp [parse_dataset_and_browser, not_protspace_of_webgl hW, hW, hJ, hS, hsp, hd, hb]


/-- C3: the filename resolver raises an error exactly when the name matches
neither the suite-aggregate pattern nor the `webgl-perf-...json` pattern, or
the `suite-` stem has an empty browser part, or the last-`-` split leaves the
dataset or browser side empty; in particular `webgl-perf-bogus.json` raises
the malformed-filename error. -/
theorem resolver_error_spec :
    (∀ name : Str,
      (∃ e, parse_dataset_and_browser name = .error e) ↔
        ¬(startswith name protSuitePre = true ∧ endswith name jsonSuf = true) ∧
        (¬(startswith name webglPre = true ∧ endswith name jsonSuf = true)
         ∨ (startswith (slice name webglPre.length jsonSuf.length) suitePre = true ∧
            (slice name webglPre.length jsonSuf.length).drop suitePre.length = [])
         ∨ (startswith (slice name webglPre.length jsonSuf.length) suitePre = false ∧
            (rsplitLast '-' (slice name webglPre.length jsonSuf.length) = none ∨
             ∃ ds br,
               rsplitLast '-' (slice name webglPre.length jsonSuf.length) = some (ds, br) ∧
               (ds = [] ∨ br = [])))))
    ∧ parse_dataset_and_browser "webgl-perf-bogus.json".toList =
        .error (.valueError
          ("Cannot parse dataset/browser from: ".toList ++ "webgl-perf-bogus.json".toList)) := by
  refine ⟨?_, rfl⟩
  intro name
  cases hP : startswith name protSuitePre with
  | true =>
    cases hJ : endswith name jsonSuf with
    | true => simp [parse_dataset_and_browser, hP, hJ]
    | false =>
      cases hW : startswith name webglPre with
      | true => simp [not_protspace_of_webgl hW] at hP
      | false => simp [parse_dataset_and_browser, hP, hJ, hW]
  | false =>
    cases hJ : endswith name jsonSuf with
    | false => simp [parse_dataset_and_browser, hP, hJ]
    | true =>
      cases hW : startswith name webglPre with
      | false => simp [parse_dataset_and_browser, hP, hJ, hW]
      | true =>
        cases hS : startswith (slice name webglPre.length jsonSuf.length) suitePre with
        | true =>
          cases hbe : ((slice name webglPre.length jsonSuf.length).drop suitePre.length).isEmpty with
          | true =>
            simp [parse_dataset_and_browser, hP, hJ, hW, hS, hbe, List.isEmpty_iff.mp hbe]
          | false =>
            have : (slice name webglPre.length jsonSuf.length).drop suitePre.length ≠ [] := by
              simpa [List.isEmpty_eq_false] using hbe
            simp [parse_dataset_and_browser, hP, hJ, hW, hS, hbe, this]
        | false =>
          cases hsp : rsplitLast '-' (slice name webglPre.length jsonSuf.length) with
          | none => simp [parse_dataset_and_browser, hP, hJ, hW, hS, hsp]
          | some p =>
            obtain ⟨ds, br⟩ := p
            cases hde : ds.isEmpty with
            | true =>
              simp [parse_dataset_and_browser, hP, hJ, hW, hS, hsp, hde]
              exact ⟨ds, br, ⟨rfl, rfl⟩, Or.inl (List.isEmpty_iff.mp hde)⟩
            | false =>
              have hd : ds ≠ [] := by simpa [List.isEmpty_eq_false] using hde
              cases hbe : br.isEmpty with
              | true =>
                simp [parse_dataset_and_browser, hP, hJ, hW, hS, hsp, hde, hd,
                  List.isEmpty_iff.mp hbe]
                exact ⟨ds, [], ⟨rfl, rfl⟩, Or.inr rfl⟩
              | false =>
                have hb : br ≠ [] := by simpa [List.isEmpty_eq_false] using hbe
                simp [parse_dataset_and_browser, hP, hJ, hW, hS, hsp, hde, hbe, hd, hb]


/-- Witness for `resolver_spec` at `webgl-perf-40K-chrome.json`. -/
theorem resolver_spec_witness :
    startswith "webgl-perf-40K-chrome.json".toList webglPre = true ∧
    parse_dataset_and_browser "webgl-perf-40K-chrome.json".toList =
      .ok (some "40K".toList, "chrome".toList) :=
  ⟨rfl, resolver_spec.2.2.1 "webgl-perf-40K-chrome.json".toList "40K".toList "chrome".toList
    rfl rfl rfl rfl (by decide) (by decide)⟩

/-- Witness for `resolver_error_spec` at `webgl-perf-bogus.json`. -/
theorem resolver_error_spec_witness :
    ∃ e, parse_dataset_and_browser "webgl-perf-bogus.json".toList = .error e :=
  (resolver_error_spec.1 "webgl-perf-bogus.json".toList).mpr
    ⟨by decide, Or.inr (Or.inr ⟨by decide, Or.inl (by decide)⟩)⟩

/-- Helper: a filename-derived dataset is never the empty string — the
resolver either reports no dataset or a non-empty one. -/
theorem parse_dataset_nonempty {name : Str} {dfn : Option Str} {browser : Str}
    (h : parse_dataset_and_browser name = .ok (dfn, browser)) :
    dfn = none ∨ ∃ d, dfn = some d ∧ d ≠ [] := by
  simp only [parse_dataset_and_browser] at h
  split at h
  · cases h
    exact Or.inl rfl
  · split at h
    · cases h
    · split at h
      · split at h
        · cases h
        · cases h
          exact Or.inl rfl
      · split at h
        · cases h
        · next ds br hsp =>
          split at h
          · cases h
          · next hcond =>
            cases h
            refine Or.inr ⟨ds, rfl, ?_⟩
            intro hnil
            subst hnil
            simp at hcond

/-- Helper: `effective_dataset` as a fallback chain over `payloadDatasetId`. -/
theorem effective_dataset_eq (dfn : Option Str) (payload : Obj) :
    effective_dataset dfn payload =
      match payloadDatasetId payload with
      | some s => s
      | none =>
        match dfn with
        | some d => if d.isEmpty then unknownStr else d
        | none => unknownStr := by
  simp only [effective_dataset, payloadDatasetId]
  cases hds : oget payload kDataset with
  | none => cases dfn <;> rfl
  | some v =>
    cases v <;> dsimp only
    case obj ds =>
      cases hid : oget ds kId with
      | none => cases dfn <;> rfl
      | some w =>
        cases w <;> dsimp only
        case str s =>
          cases hse : s.isEmpty with
          | true => cases dfn <;> simp [hse]
          | false => cases dfn <;> simp [hse]
        all_goals cases dfn <;> rfl
    all_goals cases dfn <;> rfl

/-- C4: the payload normalizer yields the empty sequence when the root is not
a mapping; exactly the mapping elements of `root["results"]`, in order,
non-mappings skipped, when that field is a sequence; otherwise the singleton
sequence holding the root itself. -/
theorem payload_normalizer_spec :
    (∀ root : Json, root.asObj = none → iter_dataset_payloads root = [])
    ∧ (∀ (fields : Obj) (entries : List Json),
        oget fields kResults = some (.arr entries) →
        iter_dataset_payloads (.obj fields) = entries.filterMap Json.asObj)
    ∧ (∀ fields : Obj, (∀ entries, oget fields kResults ≠ some (.arr entries)) →
        iter_dataset_payloads (.obj fields) = [fields]) := by
  refine ⟨?_, ?_, ?_⟩
  · intro root h
    cases root <;> simp_all [Json.asObj, iter_dataset_payloads]
  · intro fields entries h
    simp [iter_dataset_payloads, h]
  · intro fields h
    cases hr : oget fields kResults with
    | none => simp [iter_dataset_payloads, hr]
    | some v =>
      cases v with
      | arr entries => exact absurd hr (h entries)
      | null => simp [iter_dataset_payloads, hr]
      | jbool b => simp [iter_dataset_payloads, hr]
      | jint n => simp [iter_dataset_payloads, hr]
      | jnum q => simp [iter_dataset_payloads, hr]
      | str s => simp [iter_dataset_payloads, hr]
      | obj m => simp [iter_dataset_payloads, hr]

/-- Witness for `payload_normalizer_spec` on a root with a `results` list
holding one mapping and one non-mapping. -/
theorem payload_normalizer_spec_witness :
    oget [(kResults, Json.arr [Json.obj [], Json.jint 3])] kResults
      = some (.arr [Json.obj [], Json.jint 3]) ∧
    iter_dataset_payloads (.obj [(kResults, Json.arr [Json.obj [], Json.jint 3])])
      = ([Json.obj [], Json.jint 3] : List Json).filterMap Json.asObj :=
  ⟨rfl, payload_normalizer_spec.2.1 _ _ rfl⟩

/-- C5: the effective dataset identity is the payload's `dataset.id` when that
is a non-empty string, otherwise the filename-derived dataset when present,
otherwise the literal `"unknown"`. -/
theorem dataset_identity_spec :
    ∀ (name : Str) (dfn : Option Str) (browser : Str) (payload : Obj),
      parse_dataset_and_browser name = .ok (dfn, browser) →
      effective_dataset dfn payload =
        match payloadDatasetId payload, dfn with
        | some s, _ => s
        | none, some d => d
        | none, none => unknownStr := by
  intro name dfn browser payload hparse
  rw [effective_dataset_eq]
  rcases parse_dataset_nonempty hparse with rfl | ⟨d, rfl, hd⟩
  · cases payloadDatasetId payload <;> rfl
  · cases payloadDatasetId payload with
    | none => simp [List.isEmpty_eq_false.mpr hd]
    | some s => rfl

/-- Witness for `dataset_identity_spec`: a payload-embedded `dataset.id`
overrides the filename-derived dataset. -/
theorem dataset_identity_spec_witness :
    parse_dataset_and_browser "webgl-perf-5K-chrome.json".toList =
      .ok (some "5K".toList, "chrome".toList) ∧
    effective_dataset (some "5K".toList)
      [(kDataset, Json.obj [(kId, Json.str "40K".toList)])] = "40K".toList :=
  ⟨rfl,
    (dataset_identity_spec "webgl-perf-5K-chrome.json".toList (some "5K".toList)
      "chrome".toList [(kDataset, Json.obj [(kId, Json.str "40K".toList)])] rfl).trans rfl⟩

/-- A record key `(scenario_name, browser, dataset)`. The scenario name is the
JSON value stored under `'name'`, used directly as part of the dict key. -/
abbrev SKey := Json × Str × Str

/-- Python `==` on record keys. -/
def keyBeq : SKey → SKey → Bool
  | (s1, b1, d1), (s2, b2, d2) => s1.beq s2 && b1 == b2 && d1 == d2

/-- Python `==` on strings. -/
def strBeq (a b : Str) : Bool := a == b

/-- `m[k] = v` on the association-list model of a Python dict: replace the
value at the first `beq`-equal key in place (keeping the originally inserted
key, as Python dicts do), else append a new entry. -/
def alInsert {κ ν : Type} (beq : κ → κ → Bool) (k : κ) (v : ν) :
    List (κ × ν) → List (κ × ν)
  | [] => [(k, v)]
  | (k', v') :: rest =>
    if beq k' k then (k', v) :: rest else (k', v') :: alInsert beq k v rest

/-- `m.get(k)` on the association-list model of a Python dict. -/
def alGet {κ ν : Type} (beq : κ → κ → Bool) (m : List (κ × ν)) (k : κ) : Option ν :=
  match m with
  | [] => none
  | (k', v) :: rest => if beq k' k then some v else alGet beq rest k

/-- `s.add(x)` on the insertion-ordered list model of a Python set. -/
def sinsert {α : Type} (beq : α → α → Bool) (x : α) (s : List α) : List α :=
  if s.any (fun y => beq y x) then s else s ++ [x]

/-- Python `for x in v`: the element sequence when `v` is iterable (a list
yields its elements, a string its 1-character substrings, a dict its keys),
`TypeError` otherwise. -/
def pyIter : Json → Except PyErr (List Json)
  | .arr l => .ok l
  | .str s => .ok (s.map fun c => .str [c])
  | .obj m => .ok (m.map fun kv => .str kv.1)
  | _ => .error .typeError

/-- Python `x.get(key)`: only mappings have `.get`; anything else raises
`AttributeError`. -/
def getAttrObj : Json → Except PyErr Obj
  | .obj m => .ok m
  | _ => .error .attributeError

/-- `payload.get('scenarios', [])` followed by iteration. -/
def scenariosOf (payload : Obj) : Except PyErr (List Json) :=
  match oget payload kScenarios with
  | none => .ok []
  | some v => pyIter v

/-- `(scenario.get('passes') or [])` followed by iteration. -/
def passesOf (scenario : Obj) : Except PyErr (List Json) :=
  let p := (oget scenario kPasses).getD .null
  if p.falsy then .ok [] else pyIter p

/-- The in-memory aggregation state of `main`: the `records` dict, the
`datasets`/`browsers`/`scenarios` sets (as insertion-ordered duplicate-free
lists) and the `dataset_points` dict. -/
structure AggState where
  records : List (SKey × Stat)
  datasets : List Str
  browsers : List Str
  scenarios : List Json
  dataset_points : List (Str × ℕ)

/-- The state before any file is processed. -/
def initState : AggState := ⟨[], [], [], [], []⟩

/-- The `renderedPoints` loop of `main`: for each pass whose `renderedPoints`
is a non-negative `int`, record the running maximum for the dataset. -/
def updatePoints (dataset : Str) (dp : List (Str × ℕ)) (passes : List Json) :
    Except PyErr (List (Str × ℕ)) :=
  passes.foldlM
    (fun dp pass_ => do
      let pObj ← getAttrObj pass_
      match ((oget pObj kRenderedPoints).getD .null).asInt with
      | some rp =>
        if 0 ≤ rp then
          pure (alInsert strBeq dataset
            (max ((alGet strBeq dp dataset).getD 0) rp.toNat) dp)
        else
          pure dp
      | none => pure dp)
    dp

/-- The `durations` list comprehension of `main`: the `durationMs` values of
the passes where that field is numeric. -/
def durationsOf (passes : List Json) : Except PyErr (List ℚ) := do
  let objs ← passes.mapM getAttrObj
  pure (objs.filterMap fun o => ((oget o kDurationMs).getD .null).asNum)

/-- The body of `main`'s scenario loop: skip entries with a falsy name,
otherwise record the scenario, update `dataset_points`, and store the
duration statistic under `(scenario_name, browser, dataset)` (overwriting any
prior entry for that key). -/
noncomputable def processScenario (browser dataset : Str) (st : AggState)
    (scenario : Json) : Except PyErr AggState := do
  let sObj ← getAttrObj scenario
  let scenario_name := (oget sObj kName).getD .null
  if scenario_name.falsy then
    pure st
  else
    let st := { st with scenarios := sinsert Json.beq scenario_name st.scenarios }
    let passes ← passesOf sObj
    let dp ← updatePoints dataset st.dataset_points passes
    let st := { st with dataset_points := dp }
    let durations ← durationsOf passes
    pure { st with
      records := alInsert keyBeq (scenario_name, browser, dataset)
        (mean_ci95_ms durations) st.records }

/-- `main`'s scenario loop over one payload. -/
noncomputable def processScenarios (browser dataset : Str) (st : AggState)
    (scenarios : List Json) : Except PyErr AggState :=
  scenarios.foldlM (processScenario browser dataset) st

/-- The body of `main`'s payload loop: resolve the effective dataset, record
it, and process the payload's scenario entries. -/
noncomputable def processPayload (dfn : Option Str) (browser : Str)
    (st : AggState) (payload : Obj) : Except PyErr AggState := do
  let dataset := effective_dataset dfn payload
  let st := { st with datasets := sinsert strBeq dataset st.datasets }
  let scenarios ← scenariosOf payload
  processScenarios browser dataset st scenarios

/-- The body of `main`'s file loop: parse the filename, record the browser,
and process each dataset payload of the file's JSON document. -/
noncomputable def processFile (st : AggState) (file : Str × Json) :
    Except PyErr AggState := do
  let (dfn, browser) ← parse_dataset_and_browser file.1
  let st := { st with browsers := sinsert strBeq browser st.browsers }
  (iter_dataset_payloads file.2).foldlM (processPayload dfn browser) st

/-- `main`'s aggregation pass over the (sorted) result files, each given as
`(filename, parsed JSON document)`. -/
noncomputable def aggregate (files : List (Str × Json)) : Except PyErr AggState :=
  files.foldlM processFile initState

/-- The message of the fatal `SystemExit` raised when `records` is empty. -/
def noFilesMsg : Str := "No perf JSON files found under the input directory".toList

/-- The aggregation pass of `main` followed by the fatal emptiness check
`if not records: raise SystemExit(...)`. -/
noncomputable def runAggregation (files : List (Str × Json)) :
    Except PyErr AggState := do
  let st ← aggregate files
  if st.records.isEmpty then
    .error (.systemExit noFilesMsg)
  else
    pure st

/-- Helper: binding an `ok` value in `Except`. -/
theorem ok_bind {ε α β : Type _} (a : α) (g : α → Except ε β) :
    (Except.ok a >>= g) = g a := rfl

/-- Helper: binding an `error` value in `Except`. -/
theorem error_bind {ε α β : Type _} (e : ε) (g : α → Except ε β) :
    ((Except.error e : Except ε α) >>= g) = .error e := rfl

/-- Helper: a property preserved by every successful step of an exception
monad fold is preserved by the whole fold. -/
theorem foldlM_except_inv {α σ ε : Type _} (f : σ → α → Except ε σ) (P : σ → Prop)
    (hf : ∀ s a s', P s → f s a = .ok s' → P s') :
    ∀ (l : List α) (s s' : σ), P s → l.foldlM f s = .ok s' → P s' := by
  intro l
  induction l with
  | nil =>
    intro s s' hp h
    simp only [List.foldlM_nil] at h
    cases h
    exact hp
  | cons a l ih =>
    intro s s' hp h
    rw [List.foldlM_cons] at h
    cases ha : f s a with
    | error e => rw [ha] at h; exact Except.noConfusion h
    | ok t =>
      rw [ha] at h
      exact ih t s' (hf s a t hp ha) h

/-- Helper: an element on which the fold step is the identity can be removed
from an exception monad fold. -/
theorem foldlM_congr_skip {α σ ε : Type _} (f : σ → α → Except ε σ) (bad : α)
    (hbad : ∀ s, f s bad = .ok s) :
    ∀ (l1 l2 : List α) (s : σ),
      (l1 ++ bad :: l2).foldlM f s = (l1 ++ l2).foldlM f s := by
  intro l1
  induction l1 with
  | nil =>
    intro l2 s
    rw [List.nil_append, List.nil_append, List.foldlM_cons, hbad]
    rfl
  | cons a l1 ih =>
    intro l2 s
    simp only [List.cons_append, List.foldlM_cons]
    cases ha : f s a with
    | error e => rfl
    | ok t => exact ih l2 t

/-- Helper: a scenario entry whose name is missing or the empty string leaves
the aggregation state untouched. -/
theorem processScenario_skip (b d : Str) (st : AggState) (m : Obj)
    (h : oget m kName = none ∨ oget m kName = some (.str [])) :
    processScenario b d st (.obj m) = .ok st := by
  rcases h with h | h
  · simp only [processScenario, getAttrObj, ok_bind, h, Json.falsy, Option.getD_none,
      if_true]
    rfl
  · simp only [processScenario, getAttrObj, ok_bind, h, Json.falsy, Option.getD_some,
      List.isEmpty_nil, if_true]
    rfl

/-- "At most one entry per key" for the `records` dict: no two entries have
Python-equal keys (stated along the list order, matching the overwrite test
performed by `alInsert`). -/
def uniqKeys (m : List (SKey × Stat)) : Prop :=
  List.Pairwise (fun a b => keyBeq a.1 b.1 = false) m

/-- Helper: every entry of `alInsert keyBeq k v m` carries either a key
already in `m` or the inserted key `k`. -/
theorem mem_alInsert_key {k : SKey} {v : Stat} {m : List (SKey × Stat)}
    {x : SKey × Stat} (hx : x ∈ alInsert keyBeq k v m) :
    (∃ y ∈ m, x.1 = y.1) ∨ x.1 = k := by
  induction m with
  | nil =>
    simp only [alInsert, List.mem_singleton] at hx
    subst hx
    exact Or.inr rfl
  | cons e rest ih =>
    obtain ⟨k', v'⟩ := e
    simp only [alInsert] at hx
    by_cases hk : keyBeq k' k = true
    · rw [if_pos hk] at hx
      rcases List.mem_cons.mp hx with rfl | hx
      · exact Or.inl ⟨(k', v'), List.mem_cons_self _ _, rfl⟩
      · exact Or.inl ⟨x, List.mem_cons_of_mem _ hx, rfl⟩
    · rw [if_neg hk] at hx
      rcases List.mem_cons.mp hx with rfl | hx
      · exact Or.inl ⟨(k', v'), List.mem_cons_self _ _, rfl⟩
      · rcases ih hx with ⟨y, hy, hxy⟩ | hxk
        · exact Or.inl ⟨y, List.mem_cons_of_mem _ hy, hxy⟩
        · exact Or.inr hxk

/-- Helper: dict insertion preserves key uniqueness. -/
theorem uniqKeys_alInsert {k : SKey} {v : Stat} {m : List (SKey × Stat)}
    (h : uniqKeys m) : uniqKeys (alInsert keyBeq k v m) := by
  induction m with
  | nil => simp [alInsert, uniqKeys]
  | cons e rest ih =>
    obtain ⟨k', v'⟩ := e
    rw [uniqKeys, List.pairwise_cons] at h
    obtain ⟨hhead, htail⟩ := h
    simp only [alInsert]
    by_cases hk : keyBeq k' k = true
    · rw [if_pos hk]
      rw [uniqKeys, List.pairwise_cons]
      exact ⟨fun b hb => hhead b hb, htail⟩
    · rw [if_neg hk]
      rw [uniqKeys, List.pairwise_cons]
      refine ⟨fun x hx => ?_, ih htail⟩
      rcases mem_alInsert_key hx with ⟨y, hy, hxy⟩ | hxk
      · rw [hxy]
        exact hhead y hy
      · rw [hxk]
        exact Bool.eq_false_iff.mpr hk

/-- Helper: processing one scenario entry preserves key uniqueness. -/
theorem processScenario_uniq {b d : Str} {st : AggState} {sc : Json}
    {st' : AggState} (h : processScenario b d st sc = .ok st')
    (hu : uniqKeys st.records) : uniqKeys st'.records := by
  cases sc with
  | obj m =>
    simp only [processScenario, getAttrObj, ok_bind] at h
    by_cases hf : ((oget m kName).getD Json.null).falsy = true
    · rw [if_pos hf] at h
      cases h
      exact hu
    · rw [if_neg hf] at h
      cases hp : passesOf m with
      | error e => rw [hp] at h; exact Except.noConfusion h
      | ok passes =>
        rw [hp, ok_bind] at h
        cases hdp : updatePoints d st.dataset_points passes with
        | error e => rw [hdp] at h; exact Except.noConfusion h
        | ok dp =>
          rw [hdp, ok_bind] at h
          cases hdu : durationsOf passes with
          | error e => rw [hdu] at h; exact Except.noConfusion h
          | ok durations =>
            rw [hdu, ok_bind] at h
            cases h
            exact uniqKeys_alInsert hu
  | null => exact Except.noConfusion h
  | jbool x => exact Except.noConfusion h
  | jint x => exact Except.noConfusion h
  | jnum x => exact Except.noConfusion h
  | str x => exact Except.noConfusion h
  | arr x => exact Except.noConfusion h

/-- Helper: processing one dataset payload preserves key uniqueness. -/
theorem processPayload_uniq {dfn : Option Str} {b : Str} {st : AggState}
    {payload : Obj} {st' : AggState}
    (h : processPayload dfn b st payload = .ok st') (hu : uniqKeys st.records) :
    uniqKeys st'.records := by
  simp only [processPayload] at h
  cases hs : scenariosOf payload with
  | error e => rw [hs] at h; exact Except.noConfusion h
  | ok scenarios =>
    rw [hs, ok_bind] at h
    simp only [processScenarios] at h
    exact foldlM_except_inv (processScenario b (effective_dataset dfn payload))
      (fun s => uniqKeys s.records)
      (fun s a s' hp ha => processScenario_uniq ha hp) scenarios
      { st with datasets := sinsert strBeq (effective_dataset dfn payload) st.datasets }
      st' hu h

/-- Helper: processing one result file preserves key uniqueness. -/
theorem processFile_uniq {st : AggState} {file : Str × Json} {st' : AggState}
    (h : processFile st file = .ok st') (hu : uniqKeys st.records) :
    uniqKeys st'.records := by
  simp only [processFile] at h
  cases hp : parse_dataset_and_browser file.1 with
  | error e => rw [hp] at h; exact Except.noConfusion h
  | ok pr =>
    obtain ⟨dfn, browser⟩ := pr
    rw [hp, ok_bind] at h
    exact foldlM_except_inv (processPayload dfn browser)
      (fun s => uniqKeys s.records)
      (fun s a s' hps ha => processPayload_uniq ha hps) (iter_dataset_payloads file.2)
      { st with browsers := sinsert strBeq browser st.browsers }
      st' hu h

/-- A result file named `webgl-perf-40K-chrome.json` containing one
`zoomInOut` scenario with a single pass of duration `q`. -/
def zoomFile (q : ℚ) : Str × Json :=
  ("webgl-perf-40K-chrome.json".toList,
   Json.obj [(kScenarios, Json.arr [Json.obj
     [(kName, Json.str "zoomInOut".toList),
      (kPasses, Json.arr [Json.obj [(kDurationMs, Json.jnum q)]])]])])

/-- The record key written by `zoomFile`. -/
def zoomKey : SKey := (Json.str "zoomInOut".toList, "chrome".toList, "40K".toList)

/-- C6: the aggregation table maps each `(scenario, browser, dataset)` key to
at most one `Stat`, and when two files processed in order both write the same
key with different samples, the final stored `Stat` is computed from the later
file's samples only (overwrite, not merge): processing `[zoomFile q1,
zoomFile q2]` leaves exactly the record of processing `[zoomFile q2]` alone. -/
theorem aggregation_overwrite_spec :
    (∀ (files : List (Str × Json)) (st st' : AggState),
      uniqKeys st.records → files.foldlM processFile st = .ok st' →
      uniqKeys st'.records)
    ∧ (∀ q1 q2 : ℚ,
        (runAggregation [zoomFile q1, zoomFile q2]).map AggState.records =
          .ok [(zoomKey, mean_ci95_ms [q2])]
        ∧ (runAggregation [zoomFile q2]).map AggState.records =
          .ok [(zoomKey, mean_ci95_ms [q2])]) :=
  ⟨fun files st st' hu h =>
    foldlM_except_inv processFile (fun s => uniqKeys s.records)
      (fun s a s' hp ha => processFile_uniq ha hp) files st st' hu h,
   fun q1 q2 => ⟨rfl, rfl⟩⟩

/-- Witness for `aggregation_overwrite_spec` on the single file `zoomFile 10`
starting from the empty state. -/
theorem aggregation_overwrite_spec_witness :
    uniqKeys initState.records ∧
    uniqKeys [(zoomKey, mean_ci95_ms [(10 : ℚ)])] :=
  ⟨List.Pairwise.nil,
   aggregation_overwrite_spec.1 [zoomFile 10] initState
     ⟨[(zoomKey, mean_ci95_ms [(10 : ℚ)])], ["40K".toList], ["chrome".toList],
      [Json.str "zoomInOut".toList], []⟩ List.Pairwise.nil rfl⟩

/-- C8 counterexample: one matching file with zero scenario entries does NOT
complete without error — the run still raises the fatal `SystemExit`, because
the check fires on an empty `records` table rather than on the file count. -/
theorem empty_scenarios_fatal_counterexample :
    runAggregation [("webgl-perf-40K-chrome.json".toList, Json.obj [])] =
      .error (.systemExit noFilesMsg) := rfl

/-- C8 (amended): zero matching files raises the fatal "no files found"
condition; one matching file with zero scenario entries produces an empty
statistics table, but the run then raises the same fatal condition, since the
check tests emptiness of the aggregated records. -/
theorem empty_input_spec :
    runAggregation [] = .error (.systemExit noFilesMsg)
    ∧ aggregate [("webgl-perf-40K-chrome.json".toList, Json.obj [])] =
        .ok ⟨[], ["40K".toList], ["chrome".toList], [], []⟩
    ∧ runAggregation [("webgl-perf-40K-chrome.json".toList, Json.obj [])] =
        .error (.systemExit noFilesMsg) :=
  ⟨rfl, rfl, rfl⟩

/-- C9: a scenario entry whose name is missing or empty is excluded from
aggregation entirely — removing it from the scenario sequence does not change
the resulting aggregation state, so sibling entries are aggregated
unchanged. -/
theorem scenario_name_drop_spec :
    ∀ (browser dataset : Str) (st : AggState) (m : Obj) (ss1 ss2 : List Json),
      (oget m kName = none ∨ oget m kName = some (.str [])) →
      processScenarios browser dataset st (ss1 ++ Json.obj m :: ss2) =
        processScenarios browser dataset st (ss1 ++ ss2) := by
  intro b d st m ss1 ss2 h
  simp only [processScenarios]
  exact foldlM_congr_skip _ _ (fun s => processScenario_skip b d s m h) ss1 ss2 st

/-- Witness for `scenario_name_drop_spec`: a nameless entry next to a named
sibling. -/
theorem scenario_name_drop_spec_witness :
    (oget ([] : Obj) kName = none ∨ oget ([] : Obj) kName = some (.str [])) ∧
    processScenarios "chrome".toList "5K".toList initState
        ([Json.obj [(kName, Json.str "zoomInOut".toList)]] ++ Json.obj [] :: []) =
      processScenarios "chrome".toList "5K".toList initState
        ([Json.obj [(kName, Json.str "zoomInOut".toList)]] ++ []) :=
  ⟨Or.inl rfl,
   scenario_name_drop_spec "chrome".toList "5K".toList initState []
     [Json.obj [(kName, Json.str "zoomInOut".toList)]] [] (Or.inl rfl)⟩

/-- Helper: `.get` on a non-mapping scenario entry raises `AttributeError`. -/
theorem processScenario_attr_error {b d : Str} (st : AggState) {bad : Json}
    (hbad : bad.asObj = none) :
    processScenario b d st bad = .error .attributeError := by
  cases bad <;> simp_all [processScenario, getAttrObj, Json.asObj, error_bind]

/-- Helper: a non-mapping element of a `scenarios` sequence aborts the
scenario loop with `AttributeError` once reached. -/
theorem processScenarios_attr_error (b d : Str) :
    ∀ (ss1 : List Json) (st st' : AggState) (bad : Json) (ss2 : List Json),
      bad.asObj = none →
      processScenarios b d st ss1 = .ok st' →
      processScenarios b d st (ss1 ++ bad :: ss2) = .error .attributeError := by
  intro ss1
  induction ss1 with
  | nil =>
    intro st st' bad ss2 hbad _
    simp only [List.nil_append, processScenarios, List.foldlM_cons,
      processScenario_attr_error st hbad, error_bind]
  | cons a ss1 ih =>
    intro st st' bad ss2 hbad hok
    simp only [processScenarios, List.cons_append, List.foldlM_cons] at *
    cases ha : processScenario b d st a with
    | error e => rw [ha] at hok; exact Except.noConfusion hok
    | ok t =>
      rw [ha] at hok
      exact ih t st' bad ss2 hbad hok

/-- Helper: one step of the `renderedPoints` loop on a mapping pass. -/
theorem updatePoints_cons_obj (dataset : Str) (dp : List (Str × ℕ)) (m : Obj)
    (rest : List Json) :
    updatePoints dataset dp (Json.obj m :: rest) =
      updatePoints dataset
        (match ((oget m kRenderedPoints).getD .null).asInt with
         | some rp =>
           if 0 ≤ rp then
             alInsert strBeq dataset (max ((alGet strBeq dp dataset).getD 0) rp.toNat) dp
           else dp
         | none => dp)
        rest := by
  simp only [updatePoints, List.foldlM_cons, getAttrObj, ok_bind]
  cases ((oget m kRenderedPoints).getD .null).asInt with
  | some rp =>
    by_cases h : 0 ≤ rp
    · simp only [h, if_true]
      rfl
    · simp only [h, if_false]
      rfl
  | none => rfl

/-- Helper: a non-mapping element of a `passes` sequence aborts the
`renderedPoints` loop with `AttributeError` once reached. -/
theorem updatePoints_attr_error (dataset : Str) :
    ∀ (ps1 : List Json) (dp : List (Str × ℕ)) (bad : Json) (ps2 : List Json),
      (∀ p ∈ ps1, p.asObj ≠ none) → bad.asObj = none →
      updatePoints dataset dp (ps1 ++ bad :: ps2) = .error .attributeError := by
  intro ps1
  induction ps1 with
  | nil =>
    intro dp bad ps2 _ hbad
    have hga : getAttrObj bad = .error .attributeError := by
      cases bad <;> simp_all [getAttrObj, Json.asObj]
    simp only [List.nil_append, updatePoints, List.foldlM_cons, hga, error_bind]
  | cons p ps1 ih =>
    intro dp bad ps2 hp hbad
    cases p with
    | obj m =>
      rw [List.cons_append, updatePoints_cons_obj]
      exact ih _ bad ps2 (fun x hx => hp x (List.mem_cons_of_mem _ hx)) hbad
    | null => exact absurd rfl (hp _ (List.mem_cons_self _ _))
    | jbool x => exact absurd rfl (hp _ (List.mem_cons_self _ _))
    | jint x => exact absurd rfl (hp _ (List.mem_cons_self _ _))
    | jnum x => exact absurd rfl (hp _ (List.mem_cons_self _ _))
    | str x => exact absurd rfl (hp _ (List.mem_cons_self _ _))
    | arr x => exact absurd rfl (hp _ (List.mem_cons_self _ _))

/-- Helper: a named scenario whose `passes` list reaches a non-mapping element
fails with `AttributeError`. -/
theorem processScenario_pass_attr_error (b d : Str) (st : AggState) (m : Obj)
    (ps1 : List Json) (bad : Json) (ps2 : List Json)
    (hname : ((oget m kName).getD .null).falsy = false)
    (hpasses : oget m kPasses = some (.arr (ps1 ++ bad :: ps2)))
    (hps1 : ∀ p ∈ ps1, p.asObj ≠ none) (hbad : bad.asObj = none) :
    processScenario b d st (.obj m) = .error .attributeError := by
  have hpf : (Json.arr (ps1 ++ bad :: ps2)).falsy = false := by
    simp [Json.falsy]
  simp only [processScenario, getAttrObj, ok_bind]
  rw [if_neg (by rw [hname]; exact Bool.false_ne_true)]
  simp only [passesOf, hpasses, Option.getD_some]
  rw [if_neg (by rw [hpf]; exact Bool.false_ne_true)]
  simp only [pyIter, ok_bind,
    updatePoints_attr_error d ps1 st.dataset_points bad ps2 hps1 hbad, error_bind]

/-- C10: schema tolerance ends below the payload level — a non-mapping element
inside a payload's `scenarios` sequence, or inside a scenario's `passes`
sequence, makes the aggregation pass fail with an uncaught `AttributeError`,
rather than being skipped or reported as the clean fatal `SystemExit`. -/
theorem schema_intolerance_spec :
    (∀ (browser dataset : Str) (ss1 : List Json) (st st' : AggState)
       (bad : Json) (ss2 : List Json),
      bad.asObj = none →
      processScenarios browser dataset st ss1 = .ok st' →
      processScenarios browser dataset st (ss1 ++ bad :: ss2) =
        .error .attributeError)
    ∧ (∀ (browser dataset : Str) (st : AggState) (m : Obj)
         (ps1 : List Json) (bad : Json) (ps2 : List Json),
        ((oget m kName).getD .null).falsy = false →
        oget m kPasses = some (.arr (ps1 ++ bad :: ps2)) →
        (∀ p ∈ ps1, p.asObj ≠ none) → bad.asObj = none →
        processScenario browser dataset st (.obj m) = .error .attributeError)
    ∧ runAggregation [("webgl-perf-40K-chrome.json".toList,
        Json.obj [(kScenarios, Json.arr [Json.jint 5])])] =
      .error .attributeError :=
  ⟨fun b d ss1 st st' bad ss2 hbad hok =>
    processScenarios_attr_error b d ss1 st st' bad ss2 hbad hok,
   fun b d st m ps1 bad ps2 h1 h2 h3 h4 =>
    processScenario_pass_attr_error b d st m ps1 bad ps2 h1 h2 h3 h4,
   rfl⟩

/-- Witness for `schema_intolerance_spec`: an integer in a `scenarios`
sequence crashes the scenario loop. -/
theorem schema_intolerance_spec_witness :
    (Json.jint 7).asObj = none ∧
    processScenarios "chrome".toList "5K".toList initState
      ([] ++ Json.jint 7 :: []) = .error .attributeError :=
  ⟨rfl, schema_intolerance_spec.1 "chrome".toList "5K".toList [] initState initState
    (Json.jint 7) [] rfl rfl⟩

/-- Python `<=` on strings: lexicographic by code point. -/
def strLe : Str → Str → Bool
  | [], _ => true
  | _ :: _, [] => false
  | a :: as, b :: bs => if a < b then true else if b < a then false else strLe as bs

/-- Helper: `strLe` is total. -/
theorem strLe_total : ∀ a b : Str, strLe a b = true ∨ strLe b a = true
  | [], _ => Or.inl rfl
  | _ :: _, [] => Or.inr rfl
  | a :: as, b :: bs => by
    simp only [strLe]
    rcases lt_trichotomy a b with h | h | h
    · left
      rw [if_pos h]
    · subst h
      simp only [if_neg (lt_irrefl a)]
      exact strLe_total as bs
    · right
      rw [if_pos h]

/-- Helper: `strLe` is transitive. -/
theorem strLe_trans : ∀ a b c : Str,
    strLe a b = true → strLe b c = true → strLe a c = true
  | [], _, _, _, _ => rfl
  | _ :: _, [], _, h, _ => by simp [strLe] at h
  | _ :: _, _ :: _, [], _, h => by simp [strLe] at h
  | a :: as, b :: bs, c :: cs, h1, h2 => by
    simp only [strLe] at h1 h2 ⊢
    rcases lt_trichotomy a b with hab | hab | hab
    · rcases lt_trichotomy b c with hbc | hbc | hbc
      · rw [if_pos (lt_trans hab hbc)]
      · subst hbc
        rw [if_pos hab]
      · rw [if_neg (lt_asymm hbc), if_pos hbc] at h2
        exact absurd h2 (by simp)
    · subst hab
      rcases lt_trichotomy a c with hac | hac | hac
      · rw [if_pos hac]
      · subst hac
        simp only [if_neg (lt_irrefl a)] at h1 h2 ⊢
        exact strLe_trans as bs cs h1 h2
      · rw [if_neg (lt_asymm hac), if_pos hac] at h2
        exact absurd h2 (by simp)
    · rw [if_neg (lt_asymm hab), if_pos hab] at h1
      exact absurd h1 (by simp)


/-- Comparison of the sort keys `(dataset_points.get(d, float('inf')), d)`:
estimated size ascending with a missing estimate as +infinity, ties broken by
name ascending. -/
def sizeKeyLe (pts : List (Str × ℕ)) (d1 d2 : Str) : Bool :=
  match alGet strBeq pts d1, alGet strBeq pts d2 with
  | some a, some b => if a < b then true else if b < a then false else strLe d1 d2
  | some _, none => true
  | none, some _ => false
  | none, none => strLe d1 d2

/-- Helper: `sizeKeyLe` is total. -/
theorem sizeKeyLe_total (pts : List (Str × ℕ)) (d1 d2 : Str) :
    sizeKeyLe pts d1 d2 = true ∨ sizeKeyLe pts d2 d1 = true := by
  simp only [sizeKeyLe]
  cases alGet strBeq pts d1 with
  | none =>
    cases alGet strBeq pts d2 with
    | none => exact strLe_total d1 d2
    | some b => exact Or.inr rfl
  | some a =>
    cases alGet strBeq pts d2 with
    | none => exact Or.inl rfl
    | some b =>
      dsimp only
      rcases lt_trichotomy a b with h | h | h
      · left
        rw [if_pos h]
      · subst h
        simp only [if_neg (lt_irrefl a)]
        exact strLe_total d1 d2
      · right
        rw [if_pos h]

/-- Helper: `sizeKeyLe` is transitive. -/
theorem sizeKeyLe_trans (pts : List (Str × ℕ)) (d1 d2 d3 : Str)
    (h1 : sizeKeyLe pts d1 d2 = true) (h2 : sizeKeyLe pts d2 d3 = true) :
    sizeKeyLe pts d1 d3 = true := by
  simp only [sizeKeyLe] at h1 h2 ⊢
  cases ha : alGet strBeq pts d1 with
  | none =>
    cases hb : alGet strBeq pts d2 with
    | some b => rw [ha, hb] at h1; exact Bool.noConfusion h1
    | none =>
      rw [ha, hb] at h1
      cases hc : alGet strBeq pts d3 with
      | some c => rw [hb, hc] at h2; exact Bool.noConfusion h2
      | none =>
        rw [hb, hc] at h2
        dsimp only at h1 h2 ⊢
        exact strLe_trans d1 d2 d3 h1 h2
  | some a =>
    cases hc : alGet strBeq pts d3 with
    | none => rfl
    | some c =>
      cases hb : alGet strBeq pts d2 with
      | none => rw [hb, hc] at h2; exact Bool.noConfusion h2
      | some b =>
        rw [ha, hb] at h1
        rw [hb, hc] at h2
        dsimp only at h1 h2 ⊢
        rcases lt_trichotomy a b with hab | hab | hab
        · rcases lt_trichotomy b c with hbc | hbc | hbc
          · rw [if_pos (lt_trans hab hbc)]
          · subst hbc
            rw [if_pos hab]
          · rw [if_neg (lt_asymm hbc), if_pos hbc] at h2
            exact Bool.noConfusion h2
        · subst hab
          rcases lt_trichotomy a c with hac | hac | hac
          · rw [if_pos hac]
          · subst hac
            simp only [if_neg (lt_irrefl a)] at h1 h2 ⊢
            exact strLe_trans d1 d2 d3 h1 h2
          · rw [if_neg (lt_asymm hac), if_pos hac] at h2
            exact Bool.noConfusion h2
        · rw [if_neg (lt_asymm hab), if_pos hab] at h1
          exact Bool.noConfusion h1


/-- The canonical dataset order list of `main`. -/
def dataset_order : List Str :=
  ["5K".toList, "40K".toList, "beta_lactamase_ec".toList,
   "beta_lactamase_pn".toList, "phosphatase".toList]

/-- Python `sorted(...)` with the default string order, modelled by a stable
insertion sort (over distinct strings every correct sort coincides). -/
def sortedStrs (l : List Str) : List Str :=
  List.insertionSort (fun a b => strLe a b = true) l

/-- `datasets_known`: the canonical datasets present, followed by the
remaining encountered datasets alphabetically. -/
def datasets_known (datasets : List Str) : List Str :=
  dataset_order.filter (fun d => datasets.contains d) ++
    sortedStrs (datasets.filter (fun d => !dataset_order.contains d))

/-- The dataset ordering of `main`: when at least one size estimate exists,
re-sort the combined list by (estimated size, name); otherwise keep
`datasets_known` and emit the scatter-plots warning (the `Bool` flag). -/
def order_datasets (datasets : List Str) (pts : List (Str × ℕ)) :
    List Str × Bool :=
  if !pts.isEmpty then
    (List.insertionSort (fun a b => sizeKeyLe pts a b = true) (datasets_known datasets),
     false)
  else
    (datasets_known datasets, true)

/-- Helper: `datasets_known` is a permutation of the encountered datasets. -/
theorem datasets_known_perm {ds : List Str} (h : ds.Nodup) :
    List.Perm (datasets_known ds) ds := by
  have h1 : List.Perm (sortedStrs (ds.filter (fun d => !dataset_order.contains d)))
      (ds.filter (fun d => !dataset_order.contains d)) :=
    List.perm_insertionSort _ _
  have h2 : List.Perm (dataset_order.filter (fun d => ds.contains d))
      (ds.filter (fun d => dataset_order.contains d)) := by
    refine (List.perm_ext_iff_of_nodup (List.Nodup.filter _ (by decide))
      (List.Nodup.filter _ h)).mpr ?_
    intro a
    simp only [List.mem_filter, List.elem_iff]
    exact ⟨fun x => ⟨x.2, x.1⟩, fun x => ⟨x.2, x.1⟩⟩
  exact (h2.append h1).trans (List.filter_append_perm _ ds)

/-- C7: with at least one size estimate, the displayed dataset order is the
encountered datasets sorted by (estimated size ascending, name ascending),
datasets without an estimate sorting after all sized ones (+infinity); the
sample datasets ["40K","5K","unknown"] with estimates {5K: 5000, 40K: 40000}
order as ["5K","40K","unknown"]. With no size estimate anywhere, the re-sort
is skipped and the user-visible warning is emitted. -/
theorem ordering_spec :
    (∀ (datasets : List Str) (pts : List (Str × ℕ)), pts ≠ [] →
      List.Pairwise (fun a b => sizeKeyLe pts a b = true) (order_datasets datasets pts).1
      ∧ List.Perm (order_datasets datasets pts).1 (datasets_known datasets)
      ∧ (datasets.Nodup → List.Perm (order_datasets datasets pts).1 datasets)
      ∧ (order_datasets datasets pts).2 = false)
    ∧ (∀ (pts : List (Str × ℕ)) (d1 d2 : Str) (n : ℕ),
        alGet strBeq pts d1 = some n → alGet strBeq pts d2 = none →
        sizeKeyLe pts d1 d2 = true ∧ sizeKeyLe pts d2 d1 = false)
    ∧ (∀ datasets : List Str, order_datasets datasets [] = (datasets_known datasets, true))
    ∧ (order_datasets ["40K".toList, "5K".toList, unknownStr]
        [("5K".toList, 5000), ("40K".toList, 40000)]).1 =
      ["5K".toList, "40K".toList, unknownStr] := by
  refine ⟨?_, ?_, fun datasets => rfl, ?_⟩
  · intro datasets pts hne
    haveI hT : IsTotal Str (fun a b => sizeKeyLe pts a b = true) := ⟨sizeKeyLe_total pts⟩
    haveI hR : IsTrans Str (fun a b => sizeKeyLe pts a b = true) :=
      ⟨fun a b c => sizeKeyLe_trans pts a b c⟩
    have hpe : (!pts.isEmpty) = true := by
      simp [List.isEmpty_eq_false.mpr hne]
    simp only [order_datasets, hpe, if_true]
    refine ⟨List.sorted_insertionSort _ _, List.perm_insertionSort _ _, ?_, trivial⟩
    intro hnd
    exact (List.perm_insertionSort _ _).trans (datasets_known_perm hnd)
  · intro pts d1 d2 n h1 h2
    constructor <;> simp [sizeKeyLe, h1, h2]
  · rfl


/-- Witness for `ordering_spec` at the sample datasets and size estimates. -/
theorem ordering_spec_witness :
    ([("5K".toList, 5000), ("40K".toList, 40000)] : List (Str × ℕ)) ≠ [] ∧
    List.Pairwise
      (fun a b => sizeKeyLe [("5K".toList, 5000), ("40K".toList, 40000)] a b = true)
      (order_datasets ["40K".toList, "5K".toList, unknownStr]
        [("5K".toList, 5000), ("40K".toList, 40000)]).1 :=
  ⟨by decide,
   (ordering_spec.1 ["40K".toList, "5K".toList, unknownStr]
     [("5K".toList, 5000), ("40K".toList, 40000)] (by decide)).1⟩

end PerfPlot
